import Mathlib

/-!
Shallow embedding of the invoice computation core of a small invoicing
application: the line-item editor state, the two totals calculators, the
overdue predicate of the lifecycle model, the create-invoice submission
flow, and the party blocks of the PDF document renderer.

Modelling conventions: JavaScript numbers are rationals; Date values are
integer millisecond timestamps, and a function that reads the clock
receives the current time as an explicit argument; optional string
fields are plain strings where the empty string stands for an absent
value (the source only tests these fields for truthiness, under which
the empty string and an absent value behave identically).
-/

namespace InvoiceApp

/-- Line item of an invoice (interface InvoiceItem in src/types/index.ts). -/
structure InvoiceItem where
  id : String
  description : String
  quantity : ℚ
  rate : ℚ
  amount : ℚ
deriving DecidableEq, Repr

/-- Invoice status (type InvoiceStatus in src/types/index.ts). -/
inductive InvoiceStatus where
  | draft
  | sent
  | paid
  | overdue
deriving DecidableEq, Repr

/-- Client record (interface Client in src/types/index.ts); the optional
fields phone and gstin are strings with "" standing for absence. -/
structure Client where
  id : String
  userId : String
  name : String
  email : String
  phone : String
  address : String
  gstin : String
  createdAt : Int
  updatedAt : Int
deriving DecidableEq, Repr

/-- Issuer profile (interface User in src/types/index.ts); gstin is read
dynamically by the PDF service, hence included as an optional field. -/
structure User where
  uid : String
  email : String
  displayName : String
  businessName : String
  address : String
  phone : String
  website : String
  gstin : String
deriving DecidableEq, Repr

/-- Invoice record (interface Invoice in src/types/index.ts). -/
structure Invoice where
  id : String
  userId : String
  invoiceNumber : String
  clientId : String
  client : Client
  items : List InvoiceItem
  subtotal : ℚ
  taxRate : ℚ
  taxAmount : ℚ
  total : ℚ
  status : InvoiceStatus
  issueDate : Int
  dueDate : Int
  notes : String
  createdAt : Int
  updatedAt : Int
deriving DecidableEq, Repr

/-- Result shape of both totals calculators. -/
structure Totals where
  subtotal : ℚ
  taxAmount : ℚ
  total : ℚ
deriving DecidableEq, Repr

/-- isInvoiceOverdue from src/types/index.ts:
`invoice.status !== 'paid' && new Date() > invoice.dueDate`;
the clock reading `new Date()` is the explicit argument `now`. -/
def isInvoiceOverdue (invoice : Invoice) (now : Int) : Bool :=
  decide (invoice.status ≠ InvoiceStatus.paid) && decide (invoice.dueDate < now)

/-- calculateInvoiceTotals from src/types/index.ts: the subtotal is the
reduce-sum of the stored amount fields, and the tax rate is applied as a
fraction (multiplied directly, no division by 100). -/
def calculateInvoiceTotals (items : List InvoiceItem) (taxRate : ℚ) : Totals :=
  let subtotal := items.foldl (fun sum item => sum + item.amount) 0
  let taxAmount := subtotal * taxRate
  { subtotal := subtotal, taxAmount := taxAmount, total := subtotal + taxAmount }

/-- calculateTotals from CreateInvoice.tsx: the subtotal is the reduce-sum
of the stored amount fields, and the tax rate is applied as a percentage
(`(subtotal * taxRate) / 100`). -/
def calculateTotals (items : List InvoiceItem) (taxRate : ℚ) : Totals :=
  let subtotal := items.foldl (fun sum item => sum + item.amount) 0
  let taxAmount := (subtotal * taxRate) / 100
  { subtotal := subtotal, taxAmount := taxAmount, total := subtotal + taxAmount }

/-- Field update passed to handleItemChange: the source's
`(index, field, value)` pair of field name and new value. -/
inductive ItemField where
  | description (value : String)
  | quantity (value : ℚ)
  | rate (value : ℚ)
deriving DecidableEq, Repr

/-- The spread `{ ...updatedItems[index], [field]: value }` of
handleItemChange: set the named field, leave the others. -/
def setField (item : InvoiceItem) : ItemField → InvoiceItem
  | ItemField.description v => { item with description := v }
  | ItemField.quantity v => { item with quantity := v }
  | ItemField.rate v => { item with rate := v }

/-- The conditional recomputation of handleItemChange: when the changed
field is quantity or rate, `amount` is overwritten with
`quantity * rate` of the already-updated item. -/
def recomputeAmount (item : InvoiceItem) : ItemField → InvoiceItem
  | ItemField.description _ => item
  | ItemField.quantity _ => { item with amount := item.quantity * item.rate }
  | ItemField.rate _ => { item with amount := item.quantity * item.rate }

/-- handleItemChange from CreateInvoice.tsx: copy the list, replace the
item at `index` by the field update, and recompute its amount when the
field is quantity or rate, all in one state update. -/
def handleItemChange : List InvoiceItem → ℕ → ItemField → List InvoiceItem
  | [], _, _ => []
  | item :: rest, 0, f => recomputeAmount (setField item f) f :: rest
  | item :: rest, index + 1, f => item :: handleItemChange rest index f

/-- addItem from CreateInvoice.tsx: append a new item whose id is
`Date.now().toString()` (the clock reading `now` is explicit), with
empty description, quantity 1, rate 0, amount 0. -/
def addItem (items : List InvoiceItem) (now : ℕ) : List InvoiceItem :=
  items ++ [{ id := toString now, description := "", quantity := 1, rate := 0, amount := 0 }]

/-- The indexed filter `items.filter((_, i) => i !== index)` of removeItem,
keeping each element whose position differs from `index`; `i` is the
position of the head of the remaining list. -/
def filterOutIndex (index : Int) : ℕ → List InvoiceItem → List InvoiceItem
  | _, [] => []
  | i, item :: rest =>
    if (i : Int) = index then filterOutIndex index (i + 1) rest
    else item :: filterOutIndex index (i + 1) rest

/-- removeItem from CreateInvoice.tsx: when more than one item remains,
filter out the item at `index`; otherwise leave the list unchanged. -/
def removeItem (items : List InvoiceItem) (index : Int) : List InvoiceItem :=
  if 1 < items.length then filterOutIndex index 0 items else items

/-- The formData state of CreateInvoice.tsx relevant to submission. -/
structure CreateInvoiceFormData where
  invoiceNumber : String
  clientId : String
  issueDate : Int
  dueDate : Int
  taxRate : ℚ
  notes : String
  status : InvoiceStatus
deriving DecidableEq, Repr

/-- The invoiceData object assembled in handleSubmit and passed to the
createInvoice persistence call. -/
structure InvoiceData where
  invoiceNumber : String
  clientId : String
  client : Client
  items : List InvoiceItem
  subtotal : ℚ
  taxRate : ℚ
  taxAmount : ℚ
  total : ℚ
  status : InvoiceStatus
  issueDate : Int
  dueDate : Int
  notes : String
deriving DecidableEq, Repr

/-- Outcome of the handleSubmit flow: a validation toast with no
persistence call, the silent return when no session uid is present, the
caught failure when the selected client is not found, or the persistence
call carrying the assembled invoice record. -/
inductive SubmitResult where
  | validationError (message : String)
  | abortedNoSession
  | creationFailed (message : String)
  | persisted (record : InvoiceData)
deriving DecidableEq, Repr

/-- The per-item validation test of handleSubmit:
`!item.description || item.quantity <= 0 || item.rate <= 0`. -/
def invalidItem (item : InvoiceItem) : Bool :=
  decide (item.description = "") || decide (item.quantity ≤ 0) || decide (item.rate ≤ 0)

/-- handleSubmit from CreateInvoice.tsx: validate the client reference and
every line item before any persistence call; on success assemble the
invoice record from the selected client and calculateTotals and persist
it. -/
def handleSubmit (formData : CreateInvoiceFormData) (items : List InvoiceItem)
    (uid : Option String) (clients : List Client) : SubmitResult :=
  if formData.clientId = "" then
    SubmitResult.validationError "Please select a client"
  else if items.any invalidItem then
    SubmitResult.validationError "Please fill in all item details"
  else
    match uid with
    | none => SubmitResult.abortedNoSession
    | some _ =>
      match clients.find? (fun c => decide (c.id = formData.clientId)) with
      | none => SubmitResult.creationFailed "Failed to create invoice"
      | some selectedClient =>
        let totals := calculateTotals items formData.taxRate
        SubmitResult.persisted {
          invoiceNumber := formData.invoiceNumber
          clientId := formData.clientId
          client := selectedClient
          items := items
          subtotal := totals.subtotal
          taxRate := formData.taxRate
          taxAmount := totals.taxAmount
          total := totals.total
          status := formData.status
          issueDate := formData.issueDate
          dueDate := formData.dueDate
          notes := formData.notes }

/-- JavaScript `a || b` on strings: `b` when `a` is empty, else `a`. -/
def jsOr (a b : String) : String := if a = "" then b else a

/-- The "From" party stack of generateInvoicePDF in the PDF service:
the lines built for the issuer, with `.filter(Boolean)` dropping empty
strings. Note the GSTIN line: it is emitted whenever businessName and
address are both nonempty, substituting the placeholder "N/A" when the
issuer has no gstin. -/
def pdfFromBlock (userProfile : User) : List String :=
  (["From:",
    jsOr userProfile.businessName userProfile.displayName,
    userProfile.address,
    if userProfile.phone ≠ "" then "Phone: " ++ userProfile.phone else "",
    if userProfile.email ≠ "" then "Email: " ++ userProfile.email else "",
    if userProfile.website ≠ "" then "Website: " ++ userProfile.website else "",
    if userProfile.businessName ≠ "" ∧ userProfile.address ≠ "" then
      "GSTIN: " ++ jsOr userProfile.gstin "N/A"
    else ""]).filter (fun line => decide (line ≠ ""))

/-- The "To" party stack of generateInvoicePDF in the PDF service: the
lines built for the invoice's embedded client, with `.filter(Boolean)`
dropping empty strings. -/
def pdfToBlock (client : Client) : List String :=
  (["To:",
    client.name,
    client.address,
    client.email,
    if client.phone ≠ "" then "Phone: " ++ client.phone else "",
    if client.gstin ≠ "" then "GSTIN: " ++ client.gstin else ""]).filter
    (fun line => decide (line ≠ ""))

/-- Folding addition of amounts over a list equals the initial value plus
the sum of the mapped amounts. -/
theorem foldl_add_amount (items : List InvoiceItem) (s : ℚ) :
    items.foldl (fun sum item => sum + item.amount) s
      = s + (items.map (fun item => item.amount)).sum := by
  induction items generalizing s with
  | nil => simp
  | cons a rest ih =>
    rw [List.foldl_cons, ih, List.map_cons, List.sum_cons]
    ring

/-- Subtotal of calculateTotals is the sum of the stored amounts. -/
theorem calculateTotals_subtotal (items : List InvoiceItem) (taxRate : ℚ) :
    (calculateTotals items taxRate).subtotal = (items.map (fun item => item.amount)).sum := by
  simp [calculateTotals, foldl_add_amount]

/-- Subtotal of calculateInvoiceTotals is the sum of the stored amounts. -/
theorem calculateInvoiceTotals_subtotal (items : List InvoiceItem) (taxRate : ℚ) :
    (calculateInvoiceTotals items taxRate).subtotal
      = (items.map (fun item => item.amount)).sum := by
  simp [calculateInvoiceTotals, foldl_add_amount]

/-- Claim C2: isInvoiceOverdue holds exactly when the stored status is not
paid and the current time is strictly after the due date; consequently it
is false for a paid invoice regardless of date, and false for every
status when the current time is not after the due date. -/
theorem isInvoiceOverdue_iff (invoice : Invoice) (now : Int) :
    (isInvoiceOverdue invoice now = true ↔
      invoice.status ≠ InvoiceStatus.paid ∧ invoice.dueDate < now) ∧
    (invoice.status = InvoiceStatus.paid → isInvoiceOverdue invoice now = false) ∧
    (now ≤ invoice.dueDate → isInvoiceOverdue invoice now = false) := by
  refine ⟨?_, ?_, ?_⟩
  · simp [isInvoiceOverdue]
  · intro h
    simp [isInvoiceOverdue, h]
  · intro h
    have hlt : ¬ invoice.dueDate < now := not_lt.mpr h
    simp [isInvoiceOverdue, hlt]

/-- Claim C7: the subtotal returned by calculateInvoiceTotals equals the
sum of the items' stored amount fields (amounts are never recomputed from
quantity and rate), is invariant under permutation of the item sequence,
and is 0 on the empty sequence (where the total is also 0). -/
theorem calculateInvoiceTotals_sum_perm (items itemsPerm : List InvoiceItem) (taxRate : ℚ)
    (hrate : 0 ≤ taxRate) (hperm : items.Perm itemsPerm) :
    (calculateInvoiceTotals items taxRate).subtotal
        = (items.map (fun item => item.amount)).sum ∧
    (calculateInvoiceTotals items taxRate).subtotal
        = (calculateInvoiceTotals itemsPerm taxRate).subtotal ∧
    (calculateInvoiceTotals ([] : List InvoiceItem) taxRate).subtotal = 0 ∧
    (calculateInvoiceTotals ([] : List InvoiceItem) taxRate).total = 0 ∧
    (calculateTotals items taxRate).subtotal = (items.map (fun item => item.amount)).sum := by
  refine ⟨calculateInvoiceTotals_subtotal items taxRate, ?_, ?_, ?_,
    calculateTotals_subtotal items taxRate⟩
  · rw [calculateInvoiceTotals_subtotal, calculateInvoiceTotals_subtotal]
    exact (hperm.map (fun item => item.amount)).sum_eq
  · simp [calculateInvoiceTotals]
  · simp [calculateInvoiceTotals]

/-- Sample line item used by concrete witnesses. -/
def designItem : InvoiceItem :=
  { id := "1", description := "Design", quantity := 10, rate := 500, amount := 5000 }

/-- Second sample line item used by concrete witnesses. -/
def devItem : InvoiceItem :=
  { id := "2", description := "Development", quantity := 2, rate := 100, amount := 200 }

/-- Sample client record used by concrete witnesses. -/
def acmeClient : Client :=
  { id := "c1", userId := "u1", name := "Acme Corp", email := "billing@acme.test",
    phone := "", address := "12 Market Street", gstin := "", createdAt := 0, updatedAt := 0 }

/-- Sample stored invoice used by concrete witnesses; due at time 100. -/
def sampleInvoice : Invoice :=
  { id := "inv1", userId := "u1", invoiceNumber := "INV-1", clientId := "c1",
    client := acmeClient, items := [designItem], subtotal := 5000, taxRate := 18,
    taxAmount := 900, total := 5900, status := InvoiceStatus.sent,
    issueDate := 0, dueDate := 100, notes := "", createdAt := 0, updatedAt := 0 }

/-- Witness for claim C2 at a concrete invoice and clock reading. -/
theorem isInvoiceOverdue_iff_witness :
    (isInvoiceOverdue sampleInvoice 250 = true ↔
      sampleInvoice.status ≠ InvoiceStatus.paid ∧ sampleInvoice.dueDate < 250) ∧
    (sampleInvoice.status = InvoiceStatus.paid → isInvoiceOverdue sampleInvoice 250 = false) ∧
    (250 ≤ sampleInvoice.dueDate → isInvoiceOverdue sampleInvoice 250 = false) :=
  isInvoiceOverdue_iff sampleInvoice 250

/-- Witness for claim C7 at a concrete two-item list and its swap. -/
theorem calculateInvoiceTotals_sum_perm_witness :
    (calculateInvoiceTotals [designItem, devItem] (18 / 100)).subtotal
        = ([designItem, devItem].map (fun item => item.amount)).sum ∧
    (calculateInvoiceTotals [designItem, devItem] (18 / 100)).subtotal
        = (calculateInvoiceTotals [devItem, designItem] (18 / 100)).subtotal ∧
    (calculateInvoiceTotals ([] : List InvoiceItem) (18 / 100)).subtotal = 0 ∧
    (calculateInvoiceTotals ([] : List InvoiceItem) (18 / 100)).total = 0 ∧
    (calculateTotals [designItem, devItem] (18 / 100)).subtotal
        = ([designItem, devItem].map (fun item => item.amount)).sum :=
  calculateInvoiceTotals_sum_perm [designItem, devItem] [devItem, designItem] (18 / 100)
    (by norm_num) (List.Perm.swap devItem designItem [])

/-- Claim C3: after handleItemChange sets quantity or rate at a valid
index, the item at that index in the returned list already has
amount = quantity * rate; no state with a stale amount is returned. -/
theorem handleItemChange_amount_consistent (items : List InvoiceItem) (index : ℕ) (v : ℚ)
    (h : index < items.length) :
    (∃ item, (handleItemChange items index (ItemField.quantity v))[index]? = some item ∧
        item.amount = item.quantity * item.rate) ∧
    (∃ item, (handleItemChange items index (ItemField.rate v))[index]? = some item ∧
        item.amount = item.quantity * item.rate) := by
  induction items generalizing index with
  | nil => simp at h
  | cons a rest ih =>
    cases index with
    | zero =>
      exact ⟨⟨recomputeAmount (setField a (ItemField.quantity v)) (ItemField.quantity v),
              by simp [handleItemChange], by simp [setField, recomputeAmount]⟩,
             ⟨recomputeAmount (setField a (ItemField.rate v)) (ItemField.rate v),
              by simp [handleItemChange], by simp [setField, recomputeAmount]⟩⟩
    | succ n =>
      have h' : n < rest.length := by simpa using h
      obtain ⟨⟨item1, e1, p1⟩, ⟨item2, e2, p2⟩⟩ := ih n h'
      refine ⟨⟨item1, ?_, p1⟩, ⟨item2, ?_, p2⟩⟩ <;>
        simpa [handleItemChange] using ‹_›

/-- Witness for claim C3 at a concrete list and index. -/
theorem handleItemChange_amount_consistent_witness :
    (∃ item, (handleItemChange [designItem, devItem] 1 (ItemField.quantity 7))[1]? = some item ∧
        item.amount = item.quantity * item.rate) ∧
    (∃ item, (handleItemChange [designItem, devItem] 1 (ItemField.rate 7))[1]? = some item ∧
        item.amount = item.quantity * item.rate) :=
  handleItemChange_amount_consistent [designItem, devItem] 1 7 (by decide)

/-- Length preservation of handleItemChange. -/
theorem handleItemChange_length (items : List InvoiceItem) (index : ℕ) (f : ItemField) :
    (handleItemChange items index f).length = items.length := by
  induction items generalizing index with
  | nil => rfl
  | cons a rest ih =>
    cases index with
    | zero => simp [handleItemChange]
    | succ n => simp [handleItemChange, ih]

/-- handleItemChange leaves every position other than the addressed one
unchanged. -/
theorem handleItemChange_other (items : List InvoiceItem) (index : ℕ) (f : ItemField)
    (j : ℕ) (hj : j ≠ index) :
    (handleItemChange items index f)[j]? = items[j]? := by
  induction items generalizing index j with
  | nil => rfl
  | cons a rest ih =>
    cases index with
    | zero =>
      cases j with
      | zero => exact absurd rfl hj
      | succ m => simp [handleItemChange]
    | succ n =>
      cases j with
      | zero => simp [handleItemChange]
      | succ m =>
        have hm : m ≠ n := fun e => hj (by rw [e])
        simp only [handleItemChange, List.getElem?_cons_succ]
        exact ih n m hm

/-- A description update replaces only the description of the addressed
item, keeping its quantity, rate and amount. -/
theorem handleItemChange_description (items : List InvoiceItem) (index : ℕ) (v : String) :
    (handleItemChange items index (ItemField.description v))[index]?
      = (items[index]?).map (fun item => { item with description := v }) := by
  induction items generalizing index with
  | nil => rfl
  | cons a rest ih =>
    cases index with
    | zero => simp [handleItemChange, setField, recomputeAmount]
    | succ n => simp [handleItemChange, ih n]

/-- Claim C10: handleItemChange is frame-preserving: the list length is
unchanged, every item at an index other than the addressed one is
unchanged, and a description update keeps the addressed item's quantity,
rate and amount. -/
theorem handleItemChange_frame (items : List InvoiceItem) (index : ℕ) (f : ItemField) :
    (handleItemChange items index f).length = items.length ∧
    (∀ j, j ≠ index → (handleItemChange items index f)[j]? = items[j]?) ∧
    (∀ v, (handleItemChange items index (ItemField.description v))[index]?
        = (items[index]?).map (fun item => { item with description := v })) :=
  ⟨handleItemChange_length items index f,
   fun j hj => handleItemChange_other items index f j hj,
   fun v => handleItemChange_description items index v⟩

/-- Witness for claim C10 at a concrete list, index and field update. -/
theorem handleItemChange_frame_witness :
    (handleItemChange [designItem, devItem] 0 (ItemField.rate 7)).length
        = [designItem, devItem].length ∧
    (handleItemChange [designItem, devItem] 0 (ItemField.rate 7))[1]?
        = [designItem, devItem][1]? ∧
    (handleItemChange [designItem, devItem] 0 (ItemField.description "Logo"))[0]?
        = ([designItem, devItem][0]?).map (fun item => { item with description := "Logo" }) :=
  ⟨(handleItemChange_frame [designItem, devItem] 0 (ItemField.rate 7)).1,
   (handleItemChange_frame [designItem, devItem] 0 (ItemField.rate 7)).2.1 1 (by decide),
   (handleItemChange_frame [designItem, devItem] 0 (ItemField.rate 7)).2.2 "Logo"⟩

/-- filterOutIndex keeps a list whose positions all exceed the target
index fully intact. -/
theorem filterOutIndex_of_lt (items : List InvoiceItem) (i : ℕ) (index : Int)
    (h : index < (i : Int)) : filterOutIndex index i items = items := by
  induction items generalizing i with
  | nil => rfl
  | cons a rest ih =>
    have hne : (i : Int) ≠ index := by omega
    simp only [filterOutIndex, if_neg hne]
    rw [ih (i + 1) (by push_cast; omega)]

/-- filterOutIndex keeps a list fully intact when the target index lies at
or beyond the positions of all elements. -/
theorem filterOutIndex_of_ge (items : List InvoiceItem) (i : ℕ) (index : Int)
    (h : (i : Int) + items.length ≤ index) : filterOutIndex index i items = items := by
  induction items generalizing i with
  | nil => rfl
  | cons a rest ih =>
    have hne : (i : Int) ≠ index := by
      simp only [List.length_cons] at h
      omega
    simp only [filterOutIndex, if_neg hne]
    rw [ih (i + 1) (by simp only [List.length_cons] at h; push_cast; omega)]

/-- filterOutIndex at an in-range position erases exactly the element at
that position, preserving the order of the others. -/
theorem filterOutIndex_eq_eraseIdx (items : List InvoiceItem) (i j : ℕ)
    (h : j < items.length) :
    filterOutIndex ((i + j : ℕ) : Int) i items = items.eraseIdx j := by
  induction items generalizing i j with
  | nil => simp at h
  | cons a rest ih =>
    cases j with
    | zero =>
      have heq : (i : Int) = ((i + 0 : ℕ) : Int) := by push_cast; omega
      simp only [filterOutIndex, if_pos heq, List.eraseIdx_cons_zero]
      exact filterOutIndex_of_lt rest (i + 1) ((i + 0 : ℕ) : Int) (by push_cast; omega)
    | succ m =>
      have hne : (i : Int) ≠ ((i + (m + 1) : ℕ) : Int) := by push_cast; omega
      have hm : m < rest.length := by simpa using h
      have harg : ((i + (m + 1) : ℕ) : Int) = (((i + 1) + m : ℕ) : Int) := by push_cast; omega
      simp only [filterOutIndex, if_neg hne, List.eraseIdx_cons_succ]
      rw [harg, ih (i + 1) m hm]

/-- Claim C5: removeItem on a single-item list is a no-op for every index,
and on a longer list with a valid index it removes exactly the item at
that index, preserving the order of the remaining items. -/
theorem removeItem_guard_and_erase (items : List InvoiceItem) (index : Int) (j : ℕ) :
    (items.length = 1 → removeItem items index = items) ∧
    (1 < items.length → j < items.length →
      removeItem items ((j : ℕ) : Int) = items.eraseIdx j) := by
  constructor
  · intro h
    simp [removeItem, h]
  · intro h1 h2
    have := filterOutIndex_eq_eraseIdx items 0 j h2
    simp only [Nat.zero_add] at this
    simp [removeItem, h1, this]

/-- Witness for claim C5: a singleton list is untouched, and erasing index
1 from a two-item list removes exactly the second item. -/
theorem removeItem_guard_and_erase_witness :
    removeItem [designItem] 0 = [designItem] ∧
    removeItem [designItem, devItem] ((1 : ℕ) : Int) = [designItem, devItem].eraseIdx 1 :=
  ⟨(removeItem_guard_and_erase [designItem] 0 0).1 rfl,
   (removeItem_guard_and_erase [designItem, devItem] 0 1).2 (by decide) (by decide)⟩

/-- Claim C9: removeItem is total and never throws; with any out-of-range
index, negative ones included, it returns the list exactly unchanged. -/
theorem removeItem_out_of_range (items : List InvoiceItem) (index : Int)
    (h : index < 0 ∨ (items.length : Int) ≤ index) :
    removeItem items index = items := by
  unfold removeItem
  by_cases hlen : 1 < items.length
  · rw [if_pos hlen]
    rcases h with h | h
    · exact filterOutIndex_of_lt items 0 index (by push_cast; omega)
    · exact filterOutIndex_of_ge items 0 index (by push_cast; omega)
  · rw [if_neg hlen]

/-- Witness for claim C9 at a two-item list with a negative index. -/
theorem removeItem_out_of_range_witness :
    removeItem [designItem, devItem] (-3) = [designItem, devItem] :=
  removeItem_out_of_range [designItem, devItem] (-3) (Or.inl (by norm_num))

/-- calculateTotals applies the percentage tax rate as the fraction
taxRate / 100 and sums subtotal and tax into the total. -/
theorem calculateTotals_tax_and_total (items : List InvoiceItem) (taxRate : ℚ) :
    (calculateTotals items taxRate).taxAmount
        = (calculateTotals items taxRate).subtotal * (taxRate / 100) ∧
    (calculateTotals items taxRate).total
        = (calculateTotals items taxRate).subtotal + (calculateTotals items taxRate).taxAmount := by
  constructor
  · simp [calculateTotals]
    ring
  · simp [calculateTotals]

/-- Claim C1: every invoice record handed to the persistence call by the
create-invoice submission flow satisfies the derived-field invariants:
its subtotal is the sum of its items' amount fields, its taxAmount is
the subtotal times the tax rate normalized to a fraction (divided by
100 before multiplying), and its total is subtotal plus taxAmount. -/
theorem handleSubmit_persisted_invariants (formData : CreateInvoiceFormData)
    (items : List InvoiceItem) (uid : Option String) (clients : List Client)
    (record : InvoiceData)
    (h : handleSubmit formData items uid clients = SubmitResult.persisted record) :
    record.subtotal = (record.items.map (fun item => item.amount)).sum ∧
    record.taxAmount = record.subtotal * (record.taxRate / 100) ∧
    record.total = record.subtotal + record.taxAmount := by
  unfold handleSubmit at h
  split at h
  · simp at h
  · split at h
    · simp at h
    · cases uid with
      | none => simp at h
      | some u =>
        rcases hf : clients.find? (fun c => decide (c.id = formData.clientId)) with _ | c
        · rw [hf] at h
          simp at h
        · rw [hf] at h
          simp only [SubmitResult.persisted.injEq] at h
          subst h
          refine ⟨?_, ?_, ?_⟩
          · exact calculateTotals_subtotal items formData.taxRate
          · exact (calculateTotals_tax_and_total items formData.taxRate).1
          · exact (calculateTotals_tax_and_total items formData.taxRate).2

/-- Concrete form data used by the submission witnesses. -/
def sampleFormData : CreateInvoiceFormData :=
  { invoiceNumber := "INV-1", clientId := "c1", issueDate := 0, dueDate := 100,
    taxRate := 18, notes := "", status := InvoiceStatus.draft }

/-- The record that handleSubmit persists from the sample inputs. -/
def sampleRecord : InvoiceData :=
  { invoiceNumber := "INV-1", clientId := "c1", client := acmeClient,
    items := [designItem], subtotal := 5000, taxRate := 18, taxAmount := 900,
    total := 5900, status := InvoiceStatus.draft, issueDate := 0, dueDate := 100,
    notes := "" }

/-- Witness for claim C1: the sample submission persists sampleRecord and
its stored derived fields satisfy the invariants. -/
theorem handleSubmit_persisted_invariants_witness :
    sampleRecord.subtotal = (sampleRecord.items.map (fun item => item.amount)).sum ∧
    sampleRecord.taxAmount = sampleRecord.subtotal * (sampleRecord.taxRate / 100) ∧
    sampleRecord.total = sampleRecord.subtotal + sampleRecord.taxAmount :=
  handleSubmit_persisted_invariants sampleFormData [designItem] (some "u1") [acmeClient]
    sampleRecord (by
      norm_num [handleSubmit, sampleFormData, designItem, acmeClient, sampleRecord,
        invalidItem, calculateTotals, List.find?]
      rfl)

/-- invalidItem is true exactly on an item with empty description or
nonpositive quantity or nonpositive rate. -/
theorem invalidItem_iff (item : InvoiceItem) :
    invalidItem item = true ↔
      item.description = "" ∨ item.quantity ≤ 0 ∨ item.rate ≤ 0 := by
  simp [invalidItem, or_assoc]

/-- Claim C4: a submission with an empty client reference or a line item
with empty description or nonpositive quantity or rate fails with a
validation error, so no persistence call is made; conversely a
persistence call happens only when the client reference is nonempty and
every item has nonempty description and positive quantity and rate. -/
theorem handleSubmit_validation (formData : CreateInvoiceFormData)
    (items : List InvoiceItem) (uid : Option String) (clients : List Client) :
    ((formData.clientId = "" ∨ ∃ item ∈ items,
        item.description = "" ∨ item.quantity ≤ 0 ∨ item.rate ≤ 0) →
      ∃ message, handleSubmit formData items uid clients
          = SubmitResult.validationError message) ∧
    (∀ record, handleSubmit formData items uid clients = SubmitResult.persisted record →
      formData.clientId ≠ "" ∧ ∀ item ∈ items,
        item.description ≠ "" ∧ 0 < item.quantity ∧ 0 < item.rate) := by
  constructor
  · intro h
    by_cases hc : formData.clientId = ""
    · exact ⟨"Please select a client", by simp [handleSubmit, hc]⟩
    · have hbad : items.any invalidItem = true := by
        rcases h with h | ⟨item, hmem, hitem⟩
        · exact absurd h hc
        · exact List.any_eq_true.mpr ⟨item, hmem, (invalidItem_iff item).mpr hitem⟩
      exact ⟨"Please fill in all item details", by simp [handleSubmit, hc, hbad]⟩
  · intro record h
    unfold handleSubmit at h
    split at h
    · simp at h
    · rename_i hc
      split at h
      · simp at h
      · rename_i hv
        refine ⟨hc, fun item hmem => ?_⟩
        have hnot : ¬ invalidItem item = true := fun hbad =>
          hv (List.any_eq_true.mpr ⟨item, hmem, hbad⟩)
        rw [invalidItem_iff] at hnot
        push_neg at hnot
        exact ⟨hnot.1, hnot.2.1, hnot.2.2⟩

/-- Witness for claim C4: submitting with an empty client reference yields
a validation error and no persistence call. -/
theorem handleSubmit_validation_witness :
    ∃ message, handleSubmit { sampleFormData with clientId := "" } [designItem] none []
        = SubmitResult.validationError message :=
  (handleSubmit_validation { sampleFormData with clientId := "" } [designItem] none []).1
    (Or.inl rfl)

/-- An issuer profile with business name and address but no gstin. -/
def issuerNoGstin : User :=
  { uid := "u1", email := "owner@studio.test", displayName := "Priya",
    businessName := "Studio Works", address := "5 Lake Road", phone := "",
    website := "", gstin := "" }

/-- Counterexample to claim C6: the From party block of the renderer does
not omit every empty optional field; for an issuer with a business name
and address but no gstin it emits the placeholder line "GSTIN: N/A". -/
theorem pdfFromBlock_placeholder_counterexample :
    issuerNoGstin.gstin = "" ∧ "GSTIN: N/A" ∈ pdfFromBlock issuerNoGstin := by
  constructor
  · rfl
  · simp [pdfFromBlock, issuerNoGstin, jsOr]

/-- A line made of a nonempty label and any suffix is never the empty
string. -/
theorem tagged_line_ne_empty (tag s : String) (h : tag.data ≠ []) : tag ++ s ≠ "" := by
  intro he
  have hd := congrArg String.data he
  simp [String.data_append] at hd
  exact h hd.1

/-- Claim C6 as amended: for every client and issuer, no blank line is
ever emitted in either party block; in the To block every empty or
absent optional field is fully omitted and every present one is
rendered as its single labelled line in order, so a client with no
phone and no gstin yields exactly the label, name, address and email
lines; but in the From block, whenever the issuer has both a business
name and an address, a GSTIN line is emitted even when the gstin is
absent, carrying the placeholder "N/A". -/
theorem pdfPartyBlocks_amended (client : Client) (userProfile : User) :
    "" ∉ pdfToBlock client ∧
    "" ∉ pdfFromBlock userProfile ∧
    pdfToBlock client
      = ["To:", client.name, client.address, client.email].filter
          (fun line => decide (line ≠ ""))
        ++ (if client.phone ≠ "" then ["Phone: " ++ client.phone] else [])
        ++ (if client.gstin ≠ "" then ["GSTIN: " ++ client.gstin] else []) ∧
    (client.phone = "" → client.gstin = "" → client.name ≠ "" → client.address ≠ "" →
      client.email ≠ "" →
      pdfToBlock client = ["To:", client.name, client.address, client.email]) ∧
    (userProfile.businessName ≠ "" → userProfile.address ≠ "" → userProfile.gstin = "" →
      "GSTIN: N/A" ∈ pdfFromBlock userProfile) := by
  have h6 : (["To:", client.name, client.address, client.email,
      if client.phone ≠ "" then "Phone: " ++ client.phone else "",
      if client.gstin ≠ "" then "GSTIN: " ++ client.gstin else ""] : List String)
      = ["To:", client.name, client.address, client.email]
        ++ [if client.phone ≠ "" then "Phone: " ++ client.phone else "",
            if client.gstin ≠ "" then "GSTIN: " ++ client.gstin else ""] := rfl
  refine ⟨?_, ?_, ?_, ?_, ?_⟩
  · simp [pdfToBlock]
  · simp [pdfFromBlock]
  · unfold pdfToBlock
    rw [h6, List.filter_append, List.append_assoc]
    congr 1
    by_cases hp : client.phone = "" <;> by_cases hg : client.gstin = "" <;>
      simp [hp, hg, tagged_line_ne_empty "Phone: " client.phone (by decide),
        tagged_line_ne_empty "GSTIN: " client.gstin (by decide)]
  · intro hphone hgstin hname haddr hemail
    simp [pdfToBlock, hphone, hgstin, hname, haddr, hemail]
  · intro hbiz hbizaddr hnogstin
    simp [pdfFromBlock, hbiz, hbizaddr, hnogstin, jsOr]

/-- Witness for the amended claim C6 at a concrete client and issuer,
discharging the nested hypotheses of the scenario conjuncts. -/
theorem pdfPartyBlocks_amended_witness :
    "" ∉ pdfToBlock acmeClient ∧
    "" ∉ pdfFromBlock issuerNoGstin ∧
    pdfToBlock acmeClient = ["To:", acmeClient.name, acmeClient.address, acmeClient.email] ∧
    "GSTIN: N/A" ∈ pdfFromBlock issuerNoGstin :=
  ⟨(pdfPartyBlocks_amended acmeClient issuerNoGstin).1,
   (pdfPartyBlocks_amended acmeClient issuerNoGstin).2.1,
   (pdfPartyBlocks_amended acmeClient issuerNoGstin).2.2.2.1 rfl rfl (by decide) (by decide)
     (by decide),
   (pdfPartyBlocks_amended acmeClient issuerNoGstin).2.2.2.2 (by decide) (by decide) rfl⟩

/-- Line item whose id collides with the clock reading used by the addItem
counterexample. -/
def collidingItem : InvoiceItem :=
  { id := "42", description := "Design", quantity := 1, rate := 10, amount := 10 }

/-- Counterexample to claim C8: addItem does not always append an item
with a fresh unique id; its id is the string of the current clock
reading, so when an existing item already bears that string the new id
occurs twice in the resulting list. -/
theorem addItem_id_not_unique_counterexample :
    ((addItem [collidingItem] 42).map (fun item => item.id)) = ["42", "42"] ∧
    ¬ ((addItem [collidingItem] 42).map (fun item => item.id)).Nodup := by
  constructor
  · rfl
  · decide

/-- Claim C8 as amended: addItem appends exactly one new item at the end
of the sequence, leaving all existing items and their order unchanged,
with default quantity 1, rate 0 and amount 0; its id is the decimal
string of the current clock reading, and it is unique within the list
provided no existing item already bears that string (which the code
does not enforce). -/
theorem addItem_appends_amended (items : List InvoiceItem) (now : ℕ) :
    (addItem items now).length = items.length + 1 ∧
    (addItem items now).take items.length = items ∧
    (addItem items now)[items.length]?
      = some { id := toString now, description := "", quantity := 1, rate := 0, amount := 0 } ∧
    (toString now ∉ items.map (fun item => item.id) →
      ((addItem items now).map (fun item => item.id)).count (toString now) = 1) := by
  refine ⟨?_, ?_, ?_, fun h => ?_⟩
  · simp [addItem]
  · simp [addItem, List.take_append]
  · simp [addItem]
  · rw [addItem, List.map_append, List.count_append]
    simp [List.count_eq_zero.mpr h]

/-- Witness for the amended claim C8 at a concrete list and clock value. -/
theorem addItem_appends_amended_witness :
    (addItem [collidingItem] 1700000000000).length = [collidingItem].length + 1 ∧
    (addItem [collidingItem] 1700000000000).take [collidingItem].length = [collidingItem] ∧
    (addItem [collidingItem] 1700000000000)[[collidingItem].length]?
      = some { id := toString 1700000000000, description := "", quantity := 1,
               rate := 0, amount := 0 } ∧
    ((addItem [collidingItem] 1700000000000).map (fun item => item.id)).count
        (toString 1700000000000) = 1 :=
  ⟨(addItem_appends_amended [collidingItem] 1700000000000).1,
   (addItem_appends_amended [collidingItem] 1700000000000).2.1,
   (addItem_appends_amended [collidingItem] 1700000000000).2.2.1,
   (addItem_appends_amended [collidingItem] 1700000000000).2.2.2 (by decide)⟩

end InvoiceApp
